import Mathlib

/-!
Verification development for the M5-StepMotorDriver repository.

The repository consists of four near-duplicate Arduino sketches driving two
stepper motors through the FastAccelStepper library.  The most complete
variant, src/Examples/2MotorControlBasic16StepAdj-spd-rev-accel.cpp (v2.7),
implements the full design: a speed-level table cycled by a button, a
zero-speed stop policy in both moveBothMotors and updateSpeed, per-channel
null guards, and a blocking completion-poll loop.  We embed that variant's
global state and operations below (namespace M5Stepper), together with an
abstract model of the completion-poll loop and a model of the acceleration
ramp described by the design document (the ramp generator itself lives in the
external FastAccelStepper library and is not part of this repository's
sources).  The earlier v2.1 variant (2MotorControlBasic16StepAdjSpeed.cpp) is
embedded in namespace AdjSpeed to record where its behavior differs.
-/

set_option autoImplicit false

namespace M5Stepper

/-- Speed table from the source: `const int speedLevels[] = {0, 1600, 3200,
4800, 6400, 8000};` (microsteps per second). -/
def speedLevels : List Int := [0, 1600, 3200, 4800, 6400, 8000]

/-- Display percentages from the source: `{0, 20, 40, 60, 80, 100}`. -/
def speedPercentages : List Int := [0, 20, 40, 60, 80, 100]

/-- `const int speedLevelsCount = sizeof(speedLevels) / sizeof(speedLevels[0]);` -/
def speedLevelsCount : Nat := speedLevels.length

/-- `int accelerationRate = 2000;` (never reassigned after initialization). -/
def accelerationRate : Int := 2000

/-- `int revolutionsPerMove = 5;` (never reassigned after initialization). -/
def revolutionsPerMove : Int := 5

/-- The mutable global state of the sketch after `setup()`:
`steppers[2]` modelled by which entries are non-null (the pointers are set
once in `setup()` and never reassigned), `long pulseCounts[2]`, and
`int currentSpeedIndex`. -/
structure State where
  steppers : Fin 2 → Bool
  pulseCounts : Fin 2 → Int
  currentSpeedIndex : Nat

/-- A call issued to a `FastAccelStepper` object during an operation.  The
first component is always the channel index the call targets. -/
inductive StepperCmd where
  | setAccel (chan : Fin 2) (accel : Int)
  | setSpeedInHz (chan : Fin 2) (hz : Int)
  | move (chan : Fin 2) (steps : Int)
  | stopMove (chan : Fin 2)
deriving DecidableEq, Repr

/-- The channel a stepper call targets. -/
def StepperCmd.chan : StepperCmd → Fin 2
  | .setAccel i _ => i
  | .setSpeedInHz i _ => i
  | .move i _ => i
  | .stopMove i => i

/-- `speedLevels[currentSpeedIndex]` as read by the sketch. -/
def currentSpeed (s : State) : Int := speedLevels.getD s.currentSpeedIndex 0

/-- `moveBothMotors(int32_t steps)` of the v2.7 sketch.  If the selected speed
level is 0 it sets every configured channel's speed to 0 and calls
`stopMove()` on it, issuing no move and leaving `pulseCounts` untouched.
Otherwise, for each configured channel it sets acceleration and speed, issues
`move(steps)`, and adds `steps` to that channel's `pulseCounts` entry; it then
blocks until no configured channel is running (the poll loop is modelled
separately as `waitLoop`).  Returns the new state and the list of stepper
calls issued, in order. -/
def moveBothMotors (s : State) (steps : Int) : State × List StepperCmd :=
  if currentSpeed s = 0 then
    (s,
      (if s.steppers 0 then [.setSpeedInHz 0 0, .stopMove 0] else []) ++
      (if s.steppers 1 then [.setSpeedInHz 1 0, .stopMove 1] else []))
  else
    ({ s with
        pulseCounts := fun i =>
          if s.steppers i then s.pulseCounts i + steps else s.pulseCounts i },
      (if s.steppers 0 then
        [.setAccel 0 accelerationRate, .setSpeedInHz 0 (currentSpeed s),
         .move 0 steps] else []) ++
      (if s.steppers 1 then
        [.setAccel 1 accelerationRate, .setSpeedInHz 1 (currentSpeed s),
         .move 1 steps] else []))

/-- `currentSpeedIndex++; if (currentSpeedIndex >= speedLevelsCount)
currentSpeedIndex = 0;` -/
def nextIndex (i : Nat) : Nat :=
  if i + 1 ≥ speedLevelsCount then 0 else i + 1

/-- `updateSpeed()` of the v2.7 sketch: advances `currentSpeedIndex` with
wraparound; if the newly selected speed level is 0 it sets speed 0 and calls
`stopMove()` on every configured channel, otherwise it only sets the new
speed on every configured channel.  `pulseCounts` is not touched. -/
def updateSpeed (s : State) : State × List StepperCmd :=
  let idx := nextIndex s.currentSpeedIndex
  ({ s with currentSpeedIndex := idx },
    if speedLevels.getD idx 0 = 0 then
      (if s.steppers 0 then [.setSpeedInHz 0 0, .stopMove 0] else []) ++
      (if s.steppers 1 then [.setSpeedInHz 1 0, .stopMove 1] else [])
    else
      (if s.steppers 0 then [.setSpeedInHz 0 (speedLevels.getD idx 0)] else []) ++
      (if s.steppers 1 then [.setSpeedInHz 1 (speedLevels.getD idx 0)] else []))

/-- `drawStatus()`: reads `pulseCounts[0]` and `pulseCounts[1]` for the LCD;
mutates nothing. -/
def drawStatus (s : State) : State × (Int × Int) :=
  (s, (s.pulseCounts 0, s.pulseCounts 1))

/-- `drawInstructions()`: reads the current speed percentage,
`revolutionsPerMove` and `accelerationRate` for the LCD; mutates nothing. -/
def drawInstructions (s : State) : State × (Int × Int × Int) :=
  (s, (speedPercentages.getD s.currentSpeedIndex 0,
       revolutionsPerMove, accelerationRate))

/-- The commands the main loop can trigger (button A/C moves, button B speed
cycle, and the two pure display refreshes). -/
inductive Cmd where
  | moveBoth (steps : Int)
  | cycleSpeed
  | status
  | instructions

/-- One main-loop reaction, projected to its state effect. -/
def runCmd (s : State) : Cmd → State
  | .moveBoth steps => (moveBothMotors s steps).1
  | .cycleSpeed => (updateSpeed s).1
  | .status => (drawStatus s).1
  | .instructions => (drawInstructions s).1

/-- Run a sequence of main-loop commands. -/
def run (s : State) (cs : List Cmd) : State := cs.foldl runCmd s

/-- The state right after `setup()`: both pulse counters 0, speed index 0,
stepper pointers as bound by `engine.stepperConnectToPin` (each may be null). -/
def initState (cfg : Fin 2 → Bool) : State :=
  { steppers := cfg, pulseCounts := fun _ => 0, currentSpeedIndex := 0 }

/-- The condition of the completion-wait loop in `moveBothMotors`:
`(steppers[0] && steppers[0]->isRunning()) || (steppers[1] &&
steppers[1]->isRunning())`, with `running` the per-channel `isRunning()`
answer. -/
def anyRunning (cfg : Fin 2 → Bool) (running : Fin 2 → Bool) : Bool :=
  (cfg 0 && running 0) || (cfg 1 && running 1)

/-- The blocking poll loop `while (anyRunning) delay(10);` of
`moveBothMotors`, with the environment abstracted as the per-poll-tick
`isRunning()` answers `env`.  Each iteration is one `delay(10)` tick.
`fuel` bounds the number of polls so the model is total; the C loop has no
timeout and simply corresponds to an arbitrarily large fuel.  Returns the
tick at which the loop exits, or `none` if the fuel ran out first. -/
def waitLoop (cfg : Fin 2 → Bool) (env : Nat → Fin 2 → Bool) :
    Nat → Nat → Option Nat
  | 0, _ => none
  | fuel + 1, t => if anyRunning cfg (env t) then waitLoop cfg env fuel (t + 1)
                   else some t

end M5Stepper

namespace M5Stepper

/-- Concrete post-setup state used by witnesses: both channels bound, both
counters 0, speed index 1 (1600 Hz). -/
def wState : State :=
  { steppers := fun _ => true, pulseCounts := fun _ => 0, currentSpeedIndex := 1 }

/-- Concrete post-setup state used by witnesses: both channels bound, both
counters 0, speed index 0 (0 Hz, the stopped entry). -/
def wStateZero : State :=
  { steppers := fun _ => true, pulseCounts := fun _ => 0, currentSpeedIndex := 0 }

/-- C1: for every nonzero signed step count and every configured channel,
when the currently selected speed level is nonzero, `moveBothMotors steps`
changes that channel's `pulseCounts` entry by exactly `steps`: the magnitude
of the change is `|steps|` and its sign is the sign of `steps`. -/
theorem moveBothMotors_pulse_delta (s : State) (steps : Int) (i : Fin 2)
    (hsteps : steps ≠ 0) (hcfg : s.steppers i = true)
    (hspd : currentSpeed s ≠ 0) :
    (moveBothMotors s steps).1.pulseCounts i - s.pulseCounts i = steps ∧
    ((moveBothMotors s steps).1.pulseCounts i - s.pulseCounts i).natAbs
      = steps.natAbs ∧
    Int.sign ((moveBothMotors s steps).1.pulseCounts i - s.pulseCounts i)
      = Int.sign steps := by
  have h : (moveBothMotors s steps).1.pulseCounts i = s.pulseCounts i + steps := by
    simp [moveBothMotors, hspd, hcfg]
  rw [h]
  simp

/-- Witness for C1 at a concrete state (speed index 1, i.e. 1600 Hz) and the
sketch's forward move of 3200·5 steps. -/
theorem moveBothMotors_pulse_delta_witness :
    ((16000 : Int) ≠ 0 ∧ wState.steppers 0 = true ∧ currentSpeed wState ≠ 0) ∧
    ((moveBothMotors wState 16000).1.pulseCounts 0 - wState.pulseCounts 0 = 16000 ∧
     ((moveBothMotors wState 16000).1.pulseCounts 0 - wState.pulseCounts 0).natAbs
       = (16000 : Int).natAbs ∧
     Int.sign ((moveBothMotors wState 16000).1.pulseCounts 0 - wState.pulseCounts 0)
       = Int.sign 16000) :=
  ⟨⟨by decide, by rfl, by decide⟩,
   moveBothMotors_pulse_delta wState 16000 0 (by decide) (by rfl) (by decide)⟩

/-- C2: if the currently selected speed level is 0, `moveBothMotors` leaves
the whole state (in particular every `pulseCounts` entry) unchanged, calls
`stopMove` on every configured channel, and issues no `move` call. -/
theorem moveBothMotors_zero_speed (s : State) (steps : Int)
    (hspd : currentSpeed s = 0) :
    (moveBothMotors s steps).1 = s ∧
    (∀ i : Fin 2, s.steppers i = true →
      StepperCmd.stopMove i ∈ (moveBothMotors s steps).2) ∧
    (∀ j : Fin 2, ∀ st : Int,
      StepperCmd.move j st ∉ (moveBothMotors s steps).2) := by
  refine ⟨by simp [moveBothMotors, hspd], ?_, ?_⟩
  · intro i hi
    fin_cases i <;> simp_all [moveBothMotors]
  · intro j st
    cases h0 : s.steppers 0 <;> cases h1 : s.steppers 1 <;>
      simp [moveBothMotors, hspd, h0, h1]

/-- Witness for C2 at the concrete stopped state (speed index 0) and a
request of 16000 steps. -/
theorem moveBothMotors_zero_speed_witness :
    currentSpeed wStateZero = 0 ∧
    ((moveBothMotors wStateZero 16000).1 = wStateZero ∧
     (∀ i : Fin 2, wStateZero.steppers i = true →
       StepperCmd.stopMove i ∈ (moveBothMotors wStateZero 16000).2) ∧
     (∀ j : Fin 2, ∀ st : Int,
       StepperCmd.move j st ∉ (moveBothMotors wStateZero 16000).2)) :=
  ⟨by decide, moveBothMotors_zero_speed wStateZero 16000 (by decide)⟩

end M5Stepper

namespace M5Stepper

lemma updateSpeed_fst (s : State) :
    (updateSpeed s).1 = { s with currentSpeedIndex := nextIndex s.currentSpeedIndex } := rfl

lemma iterate_updateSpeed_index (n : Nat) (s : State) :
    ((fun t => (updateSpeed t).1)^[n] s).currentSpeedIndex
      = nextIndex^[n] s.currentSpeedIndex := by
  induction n generalizing s with
  | zero => rfl
  | succ n ih =>
      rw [Function.iterate_succ_apply, Function.iterate_succ_apply]
      exact ih ((fun t => (updateSpeed t).1) s)

/-- C4: starting from any index in `[0, speedLevelsCount)`, calling
`updateSpeed` exactly `speedLevelsCount` times returns `currentSpeedIndex`
to its starting value. -/
theorem updateSpeed_cycle (s : State) (h : s.currentSpeedIndex < speedLevelsCount) :
    ((fun t => (updateSpeed t).1)^[speedLevelsCount] s).currentSpeedIndex
      = s.currentSpeedIndex := by
  rw [iterate_updateSpeed_index]
  have hall : ∀ j, j < 6 → nextIndex^[6] j = j := by decide
  exact hall _ h

/-- Witness for C4 at the concrete post-setup state (index 0). -/
theorem updateSpeed_cycle_witness :
    wStateZero.currentSpeedIndex < speedLevelsCount ∧
    ((fun t => (updateSpeed t).1)^[speedLevelsCount] wStateZero).currentSpeedIndex
      = wStateZero.currentSpeedIndex :=
  ⟨by decide, updateSpeed_cycle wStateZero (by decide)⟩

lemma nextIndex_lt (j : Nat) : nextIndex j < speedLevelsCount := by
  have h6 : speedLevelsCount = 6 := rfl
  simp only [nextIndex, h6]
  split <;> omega

lemma runCmd_index (s : State) (c : Cmd) (h : s.currentSpeedIndex < speedLevelsCount) :
    (runCmd s c).currentSpeedIndex < speedLevelsCount := by
  cases c with
  | moveBoth steps =>
      have heq : (runCmd s (Cmd.moveBoth steps)).currentSpeedIndex
          = s.currentSpeedIndex := by
        by_cases hsp : currentSpeed s = 0 <;> simp [runCmd, moveBothMotors, hsp]
      rw [heq]; exact h
  | cycleSpeed =>
      have heq : (runCmd s Cmd.cycleSpeed).currentSpeedIndex
          = nextIndex s.currentSpeedIndex := rfl
      rw [heq]; exact nextIndex_lt _
  | status => exact h
  | instructions => exact h

lemma run_index (cs : List Cmd) :
    ∀ s : State, s.currentSpeedIndex < speedLevelsCount →
      (run s cs).currentSpeedIndex < speedLevelsCount := by
  induction cs with
  | nil => intro s h; exact h
  | cons c cs ih => intro s h; exact ih (runCmd s c) (runCmd_index s c h)

/-- Witness state at the last speed index (5, 8000 Hz). -/
def wStateLast : State :=
  { steppers := fun _ => true, pulseCounts := fun _ => 0, currentSpeedIndex := 5 }

/-- C5: `currentSpeedIndex` stays in `[0, speedLevelsCount)` after every
sequence of main-loop operations from the post-setup state, and calling
`updateSpeed` at the last index (`speedLevelsCount - 1`) wraps it to 0. -/
theorem currentSpeedIndex_invariant :
    (∀ (cfg : Fin 2 → Bool) (cs : List Cmd),
      (run (initState cfg) cs).currentSpeedIndex < speedLevelsCount) ∧
    (∀ s : State, s.currentSpeedIndex = speedLevelsCount - 1 →
      (updateSpeed s).1.currentSpeedIndex = 0) := by
  constructor
  · intro cfg cs
    refine run_index cs (initState cfg) ?_
    show (0 : Nat) < speedLevelsCount
    decide
  · intro s h
    rw [updateSpeed_fst]
    show nextIndex s.currentSpeedIndex = 0
    rw [h]
    decide

/-- Witness for C5: one speed-cycle from setup keeps the index in range, and
advancing from the concrete last-index state wraps to 0. -/
theorem currentSpeedIndex_invariant_witness :
    (run (initState (fun _ => true)) [Cmd.cycleSpeed]).currentSpeedIndex
      < speedLevelsCount ∧
    (wStateLast.currentSpeedIndex = speedLevelsCount - 1 ∧
     (updateSpeed wStateLast).1.currentSpeedIndex = 0) :=
  ⟨currentSpeedIndex_invariant.1 (fun _ => true) [Cmd.cycleSpeed],
   by decide,
   currentSpeedIndex_invariant.2 wStateLast (by decide)⟩

/-- C6: when `updateSpeed` advances to an entry whose speed level is 0 it
calls `stopMove` on every configured channel; otherwise every call it issues
is a `setSpeedInHz` with the new speed — in particular it issues no
`stopMove` and no `move` — and it does issue that `setSpeedInHz` to every
configured channel. -/
theorem updateSpeed_stop_policy (s : State) :
    (speedLevels.getD (nextIndex s.currentSpeedIndex) 0 = 0 →
      ∀ i : Fin 2, s.steppers i = true →
        StepperCmd.stopMove i ∈ (updateSpeed s).2) ∧
    (speedLevels.getD (nextIndex s.currentSpeedIndex) 0 ≠ 0 →
      (∀ i : Fin 2, s.steppers i = true →
        StepperCmd.setSpeedInHz i
            (speedLevels.getD (nextIndex s.currentSpeedIndex) 0)
          ∈ (updateSpeed s).2) ∧
      (∀ c ∈ (updateSpeed s).2, ∃ i : Fin 2,
        c = StepperCmd.setSpeedInHz i
              (speedLevels.getD (nextIndex s.currentSpeedIndex) 0))) := by
  constructor
  · intro hz i hi
    fin_cases i <;> simp_all [updateSpeed]
  · intro hz
    constructor
    · intro i hi
      fin_cases i <;> simp_all [updateSpeed]
    · intro c hc
      simp only [updateSpeed, if_neg hz] at hc
      cases h0 : s.steppers 0 <;> cases h1 : s.steppers 1 <;>
        simp [h0, h1] at hc <;> aesop

/-- Witness for C6: advancing from the last index selects speed 0 and stops
both channels; advancing from index 0 selects 1600 Hz and pushes it. -/
theorem updateSpeed_stop_policy_witness :
    (speedLevels.getD (nextIndex wStateLast.currentSpeedIndex) 0 = 0 ∧
     StepperCmd.stopMove 0 ∈ (updateSpeed wStateLast).2 ∧
     StepperCmd.stopMove 1 ∈ (updateSpeed wStateLast).2) ∧
    (speedLevels.getD (nextIndex wStateZero.currentSpeedIndex) 0 ≠ 0 ∧
     StepperCmd.setSpeedInHz 0
         (speedLevels.getD (nextIndex wStateZero.currentSpeedIndex) 0)
       ∈ (updateSpeed wStateZero).2) :=
  ⟨⟨by decide, (updateSpeed_stop_policy wStateLast).1 (by decide) 0 rfl,
    (updateSpeed_stop_policy wStateLast).1 (by decide) 1 rfl⟩,
   ⟨by decide, ((updateSpeed_stop_policy wStateZero).2 (by decide)).1 0 rfl⟩⟩

end M5Stepper

namespace M5Stepper

lemma moveBothMotors_cmds_configured (s : State) (steps : Int) :
    ∀ c ∈ (moveBothMotors s steps).2, s.steppers c.chan = true := by
  intro c hc
  by_cases hsp : currentSpeed s = 0 <;>
    cases h0 : s.steppers 0 <;> cases h1 : s.steppers 1 <;>
      simp [moveBothMotors, hsp, h0, h1] at hc <;>
      casesm* _ ∨ _ <;> subst_vars <;> simp [StepperCmd.chan, h0, h1]

lemma updateSpeed_cmds_configured (s : State) :
    ∀ c ∈ (updateSpeed s).2, s.steppers c.chan = true := by
  intro c hc
  simp only [updateSpeed] at hc
  split at hc <;>
    cases h0 : s.steppers 0 <;> cases h1 : s.steppers 1 <;>
      simp [h0, h1] at hc <;>
      (try casesm* _ ∨ _) <;> subst_vars <;> simp [StepperCmd.chan, h0, h1]

lemma anyRunning_congr (cfg r r' : Fin 2 → Bool)
    (h : ∀ j : Fin 2, cfg j = true → r j = r' j) :
    anyRunning cfg r = anyRunning cfg r' := by
  cases h0 : cfg 0
  · cases h1 : cfg 1
    · simp [anyRunning, h0, h1]
    · simp [anyRunning, h0, h1, h 1 h1]
  · cases h1 : cfg 1
    · simp [anyRunning, h0, h1, h 0 h0]
    · simp [anyRunning, h0, h1, h 0 h0, h 1 h1]

lemma waitLoop_congr (cfg : Fin 2 → Bool) (env env' : Nat → Fin 2 → Bool)
    (h : ∀ (n : Nat) (j : Fin 2), cfg j = true → env n j = env' n j) :
    ∀ fuel t : Nat, waitLoop cfg env fuel t = waitLoop cfg env' fuel t := by
  intro fuel
  induction fuel with
  | zero => intro t; rfl
  | succ fuel ih =>
      intro t
      show (if anyRunning cfg (env t) then waitLoop cfg env fuel (t + 1)
            else some t)
         = (if anyRunning cfg (env' t) then waitLoop cfg env' fuel (t + 1)
            else some t)
      rw [anyRunning_congr cfg (env t) (env' t) (fun j hj => h t j hj), ih (t + 1)]

/-- C7: a channel whose stepper pointer is null is skipped by every
operation: `moveBothMotors` leaves its `pulseCounts` entry unchanged and
issues no stepper call targeting it, `updateSpeed` issues no stepper call
targeting it, and the completion-wait loop's behavior is independent of that
channel's `isRunning()` answers. -/
theorem null_channel_skipped (s : State) (steps : Int) (i : Fin 2)
    (h : s.steppers i = false) :
    (moveBothMotors s steps).1.pulseCounts i = s.pulseCounts i ∧
    (∀ c ∈ (moveBothMotors s steps).2, StepperCmd.chan c ≠ i) ∧
    (∀ c ∈ (updateSpeed s).2, StepperCmd.chan c ≠ i) ∧
    (∀ (env env' : Nat → Fin 2 → Bool) (fuel t : Nat),
      (∀ (n : Nat) (j : Fin 2), s.steppers j = true → env n j = env' n j) →
      waitLoop s.steppers env fuel t = waitLoop s.steppers env' fuel t) := by
  refine ⟨?_, ?_, ?_, ?_⟩
  · by_cases hsp : currentSpeed s = 0 <;> simp [moveBothMotors, hsp, h]
  · intro c hc heq
    have hcfg := moveBothMotors_cmds_configured s steps c hc
    rw [heq, h] at hcfg
    exact Bool.false_ne_true hcfg
  · intro c hc heq
    have hcfg := updateSpeed_cmds_configured s c hc
    rw [heq, h] at hcfg
    exact Bool.false_ne_true hcfg
  · intro env env' fuel t henv
    exact waitLoop_congr s.steppers env env' henv fuel t

/-- Witness state for C7: channel 0 bound, channel 1 null, speed index 1. -/
def wStateHalf : State :=
  { steppers := fun j => j == 0, pulseCounts := fun _ => 0, currentSpeedIndex := 1 }

/-- Witness for C7: with channel 1 null, a 16000-step move leaves
`pulseCounts[1]` unchanged. -/
theorem null_channel_skipped_witness :
    wStateHalf.steppers 1 = false ∧
    (moveBothMotors wStateHalf 16000).1.pulseCounts 1 = wStateHalf.pulseCounts 1 :=
  ⟨by decide, (null_channel_skipped wStateHalf 16000 1 (by decide)).1⟩

/-- C8: `moveBothMotors` never changes `currentSpeedIndex` or the stepper
bindings, and changes each `pulseCounts` entry only by adding the move's
step count (or not at all); `updateSpeed` never changes `pulseCounts` or the
bindings; `drawStatus` and `drawInstructions` change no state at all. -/
theorem frame_conditions (s : State) (steps : Int) :
    ((moveBothMotors s steps).1.currentSpeedIndex = s.currentSpeedIndex ∧
     (moveBothMotors s steps).1.steppers = s.steppers ∧
     (∀ i : Fin 2,
       (moveBothMotors s steps).1.pulseCounts i = s.pulseCounts i + steps ∨
       (moveBothMotors s steps).1.pulseCounts i = s.pulseCounts i)) ∧
    ((updateSpeed s).1.pulseCounts = s.pulseCounts ∧
     (updateSpeed s).1.steppers = s.steppers) ∧
    ((drawStatus s).1 = s ∧ (drawInstructions s).1 = s) := by
  refine ⟨⟨?_, ?_, ?_⟩, ⟨rfl, rfl⟩, rfl, rfl⟩
  · by_cases hsp : currentSpeed s = 0 <;> simp [moveBothMotors, hsp]
  · by_cases hsp : currentSpeed s = 0 <;> simp [moveBothMotors, hsp]
  · intro i
    by_cases hsp : currentSpeed s = 0
    · right; simp [moveBothMotors, hsp]
    · by_cases hi : s.steppers i = true
      · left; simp [moveBothMotors, hsp, hi]
      · right; simp [moveBothMotors, hsp, hi]

end M5Stepper

namespace M5Stepper

lemma anyRunning_false (cfg r : Fin 2 → Bool) (h : anyRunning cfg r = false) :
    ∀ i : Fin 2, cfg i = true → r i = false := by
  intro i hi
  simp only [anyRunning, Bool.or_eq_false_iff, Bool.and_eq_false_iff] at h
  fin_cases i <;> simp_all

/-- C9: whenever the completion-wait loop of `moveBothMotors` returns (at
poll tick `k`), no configured channel reports `isRunning()` at that tick,
and at every earlier poll tick since the loop started some configured
channel was still reporting running (so the loop never returns while a
configured stepper runs). -/
theorem waitLoop_exits_idle (cfg : Fin 2 → Bool) (env : Nat → Fin 2 → Bool)
    (fuel t k : Nat) (h : waitLoop cfg env fuel t = some k) :
    (anyRunning cfg (env k) = false ∧
     ∀ i : Fin 2, cfg i = true → env k i = false) ∧
    t ≤ k ∧
    (∀ j : Nat, t ≤ j → j < k → anyRunning cfg (env j) = true) := by
  induction fuel generalizing t with
  | zero => simp [waitLoop] at h
  | succ fuel ih =>
      have hdef : waitLoop cfg env (fuel + 1) t
          = if anyRunning cfg (env t) then waitLoop cfg env fuel (t + 1)
            else some t := rfl
      rw [hdef] at h
      by_cases hr : anyRunning cfg (env t) = true
      · rw [if_pos hr] at h
        obtain ⟨hidle, hk, hj⟩ := ih (t + 1) h
        refine ⟨hidle, by omega, ?_⟩
        intro j hj1 hj2
        rcases Nat.eq_or_lt_of_le hj1 with rfl | hlt
        · exact hr
        · exact hj j (by omega) hj2
      · have hrf : anyRunning cfg (env t) = false := by
          cases hval : anyRunning cfg (env t)
          · rfl
          · exact absurd hval hr
        rw [if_neg hr] at h
        obtain rfl : t = k := Option.some.inj h
        exact ⟨⟨hrf, anyRunning_false cfg (env t) hrf⟩, Nat.le_refl t,
          fun j h1 h2 => by omega⟩

/-- Witness for C9: with both channels configured and an environment that
reports running only at tick 0, the loop exits at tick 1, where nothing is
running, and at tick 0 something was still running. -/
theorem waitLoop_exits_idle_witness :
    waitLoop (fun _ => true) (fun n _ => n == 0) 5 0 = some 1 ∧
    anyRunning (fun _ => true) ((fun n _ => n == 0) 1) = false ∧
    anyRunning (fun _ => true) ((fun n _ => n == 0) 0) = true :=
  ⟨rfl,
   (waitLoop_exits_idle (fun _ => true) (fun n _ => n == 0) 5 0 1 rfl).1.1,
   (waitLoop_exits_idle (fun _ => true) (fun n _ => n == 0) 5 0 1 rfl).2.2 0
     (by decide) (by decide)⟩

lemma runCmd_steppers (s : State) (c : Cmd) : (runCmd s c).steppers = s.steppers := by
  cases c with
  | moveBoth steps =>
      by_cases hsp : currentSpeed s = 0 <;> simp [runCmd, moveBothMotors, hsp]
  | cycleSpeed => rfl
  | status => rfl
  | instructions => rfl

lemma runCmd_sync (s : State) (c : Cmd) (h0 : s.steppers 0 = true)
    (h1 : s.steppers 1 = true) (h : s.pulseCounts 0 = s.pulseCounts 1) :
    (runCmd s c).pulseCounts 0 = (runCmd s c).pulseCounts 1 := by
  cases c with
  | moveBoth steps =>
      by_cases hsp : currentSpeed s = 0 <;>
        simp [runCmd, moveBothMotors, hsp, h0, h1, h]
  | cycleSpeed => exact h
  | status => exact h
  | instructions => exact h

/-- C10: when both stepper channels are bound at setup, the two
`pulseCounts` entries are equal after every sequence of main-loop
operations: both start at 0 and every mutation adds the same signed step
count to both. -/
theorem pulseCounts_locked (cfg : Fin 2 → Bool) (cs : List Cmd)
    (h0 : cfg 0 = true) (h1 : cfg 1 = true) :
    (run (initState cfg) cs).pulseCounts 0
      = (run (initState cfg) cs).pulseCounts 1 := by
  suffices hgen : ∀ s : State, s.steppers 0 = true → s.steppers 1 = true →
      s.pulseCounts 0 = s.pulseCounts 1 →
      (run s cs).pulseCounts 0 = (run s cs).pulseCounts 1 by
    exact hgen (initState cfg) h0 h1 rfl
  induction cs with
  | nil => intro s _ _ h; exact h
  | cons c cs ih =>
      intro s hs0 hs1 h
      exact ih (runCmd s c) (by rw [runCmd_steppers]; exact hs0)
        (by rw [runCmd_steppers]; exact hs1) (runCmd_sync s c hs0 hs1 h)

/-- Witness for C10 at a concrete command sequence: cycle to 1600 Hz, move
forward 16000 steps, move back 3200. -/
theorem pulseCounts_locked_witness :
    ((fun _ => true : Fin 2 → Bool) 0 = true ∧
     (fun _ => true : Fin 2 → Bool) 1 = true) ∧
    (run (initState (fun _ => true))
        [Cmd.cycleSpeed, Cmd.moveBoth 16000, Cmd.moveBoth (-3200)]).pulseCounts 0
      = (run (initState (fun _ => true))
        [Cmd.cycleSpeed, Cmd.moveBoth 16000, Cmd.moveBoth (-3200)]).pulseCounts 1 :=
  ⟨⟨rfl, rfl⟩,
   pulseCounts_locked (fun _ => true)
     [Cmd.cycleSpeed, Cmd.moveBoth 16000, Cmd.moveBoth (-3200)] rfl rfl⟩

end M5Stepper

namespace M5Stepper

/-- Modelled from the spec: the repository's sources contain no ramp
generator (the per-pulse acceleration state machine the design document
ascribes to AxisChannel is provided by the external FastAccelStepper
library), so the ramp is modelled from the document's words: a move of `n`
steps at cruise rate `R` with acceleration `A` (rate units gained per
emitted pulse) emits exactly one pulse per list entry; the instantaneous
rate at pulse `i` is capped by the ramp-up from rest (`A * (i + 1)`), by the
cruise rate `R`, and by the symmetric ramp-down to rest scheduled so the
rate returns to 0 exactly as the last pulse is emitted (`A * (n - i)`). -/
def rampSpeeds (A R n : Nat) : List Nat :=
  (List.range n).map (fun i => min (min (A * (i + 1)) R) (A * (n - i)))

/-- Modelled from the spec: the least step count whose symmetric ramp-up
plus ramp-down can reach the cruise rate `R` at acceleration `A`. -/
def rampThreshold (A R : Nat) : Nat := 2 * ((R - 1) / A) + 1

/-- C3: for every positive acceleration and positive target rate there is a
step-count threshold (`rampThreshold`) such that a move strictly below it
never reaches the target rate (every instantaneous rate stays below `R`,
the triangular regime), a move at or above it does reach `R` (the
trapezoidal regime), and in both regimes the number of pulses emitted is
exactly the requested step count. -/
theorem ramp_threshold_dichotomy (A R : Nat) (hA : 1 ≤ A) (hR : 1 ≤ R) :
    (∀ n, n < rampThreshold A R → ∀ v ∈ rampSpeeds A R n, v < R) ∧
    (∀ n, rampThreshold A R ≤ n → R ∈ rampSpeeds A R n) ∧
    (∀ n, (rampSpeeds A R n).length = n) := by
  have hA0 : 0 < A := hA
  have hqm : A * ((R - 1) / A) + (R - 1) % A = R - 1 := Nat.div_add_mod _ _
  have hmlt : (R - 1) % A < A := Nat.mod_lt _ hA0
  have hlow : A * ((R - 1) / A) ≤ R - 1 := by omega
  have hup : R ≤ A * ((R - 1) / A + 1) := by
    have hmul : A * ((R - 1) / A + 1) = A * ((R - 1) / A) + A := by ring
    omega
  refine ⟨?_, ?_, ?_⟩
  · intro n hn v hv
    simp only [rampSpeeds, List.mem_map, List.mem_range] at hv
    obtain ⟨i, hi, rfl⟩ := hv
    by_cases hcase : A * (i + 1) < R
    · calc min (min (A * (i + 1)) R) (A * (n - i))
          ≤ min (A * (i + 1)) R := min_le_left _ _
        _ ≤ A * (i + 1) := min_le_left _ _
        _ < R := hcase
    · push_neg at hcase
      have hiq : (R - 1) / A < i + 1 := by
        by_contra hle
        push_neg at hle
        have := Nat.mul_le_mul_left A hle
        omega
      have hni : n - i ≤ (R - 1) / A := by
        simp only [rampThreshold] at hn
        omega
      calc min (min (A * (i + 1)) R) (A * (n - i))
          ≤ A * (n - i) := min_le_right _ _
        _ ≤ A * ((R - 1) / A) := Nat.mul_le_mul_left A hni
        _ ≤ R - 1 := hlow
        _ < R := by omega
  · intro n hn
    simp only [rampThreshold] at hn
    simp only [rampSpeeds, List.mem_map, List.mem_range]
    refine ⟨(R - 1) / A, by omega, ?_⟩
    have h2 : R ≤ A * (n - (R - 1) / A) := by
      have hle : (R - 1) / A + 1 ≤ n - (R - 1) / A := by omega
      calc R ≤ A * ((R - 1) / A + 1) := hup
        _ ≤ A * (n - (R - 1) / A) := Nat.mul_le_mul_left A hle
    rw [min_eq_right hup]
    exact min_eq_left h2
  · intro n
    simp [rampSpeeds]

/-- Witness for C3 at acceleration 2 and target rate 5: the threshold is 5
pulses; a 5-pulse move reaches rate 5 and emits exactly 5 pulses. -/
theorem ramp_threshold_dichotomy_witness :
    (1 ≤ 2 ∧ 1 ≤ 5 ∧ rampThreshold 2 5 ≤ 5) ∧
    5 ∈ rampSpeeds 2 5 5 ∧ (rampSpeeds 2 5 5).length = 5 :=
  ⟨⟨by decide, by decide, by decide⟩,
   (ramp_threshold_dichotomy 2 5 (by decide) (by decide)).2.1 5 (by decide),
   (ramp_threshold_dichotomy 2 5 (by decide) (by decide)).2.2 5⟩

end M5Stepper

namespace AdjSpeed

/-- Speed table of the earlier v2.1 sketch
(2MotorControlBasic16StepAdjSpeed.cpp): `{0, 100, 200, 300, 400, 500}`. -/
def speedLevels : List Int := [0, 100, 200, 300, 400, 500]

/-- `moveBothMotors` of the v2.1 sketch: no zero-speed guard; every
configured channel gets `move(steps)` and `pulseCounts[i] += steps`
unconditionally. -/
def moveBothMotors (s : M5Stepper.State) (steps : Int) :
    M5Stepper.State × List M5Stepper.StepperCmd :=
  ({ s with
      pulseCounts := fun i =>
        if s.steppers i then s.pulseCounts i + steps else s.pulseCounts i },
   (if s.steppers 0 then [.move 0 steps] else []) ++
   (if s.steppers 1 then [.move 1 steps] else []))

/-- `updateSpeed` of the v2.1 sketch: advances the index and pushes the new
speed to every configured channel; unlike the v2.7 sketch it never calls
`stopMove`, even when the new level is 0. -/
def updateSpeed (s : M5Stepper.State) :
    M5Stepper.State × List M5Stepper.StepperCmd :=
  let idx := M5Stepper.nextIndex s.currentSpeedIndex
  ({ s with currentSpeedIndex := idx },
   (if s.steppers 0 then [.setSpeedInHz 0 (speedLevels.getD idx 0)] else []) ++
   (if s.steppers 1 then [.setSpeedInHz 1 (speedLevels.getD idx 0)] else []))

/-- Divergence record: in the v2.1 sketch the pulse counter is incremented
regardless of the selected speed level — the zero-speed policy of the design
exists only in the v2.7 sketch. -/
lemma moveBothMotors_ignores_speed_level (s : M5Stepper.State) (steps : Int)
    (i : Fin 2) (h : s.steppers i = true) :
    (moveBothMotors s steps).1.pulseCounts i = s.pulseCounts i + steps := by
  simp [moveBothMotors, h]

/-- Divergence record: the v2.1 `updateSpeed` issues no `stopMove` call in
any case. -/
lemma updateSpeed_never_stops (s : M5Stepper.State) :
    ∀ j : Fin 2, M5Stepper.StepperCmd.stopMove j ∉ (updateSpeed s).2 := by
  intro j
  cases h0 : s.steppers 0 <;> cases h1 : s.steppers 1 <;>
    simp [updateSpeed, h0, h1]

end AdjSpeed
